import Mathlib

/-!
Verification of the copy-on-write block driver of qemu 0.50 (`block.c`).

The embedding is shallow and follows the source function by function:

* `set_bit` / `is_bit_set` — the dirty-bitmap byte/bit primitives
  (block.c lines 157–165).  The bitmap is modelled as a byte map
  `Nat → Nat`; the bit arithmetic (`/8`, `%8`, shift, and, or) is kept
  exactly as written.
* `is_changed` — the bitmap run scanner (lines 171–189).  The C `for`
  loop over `num_same` is `is_changed_loop`, structurally recursive on
  the remaining iteration count `nb_sectors - num_same`.
* `bdrv_read` / `bdrv_write` — the sector data path (lines 233–299).
  Files are byte-addressed (`File`); a POSIX read of `len` bytes at
  offset `off` is short (an error for the driver) exactly when
  `off + len` exceeds the file size; a write always transfers fully and
  extends the file.  Descriptors that are `-1` in C are `Option.none`.
* `bdrv_commit` — the commit engine (lines 192–230), including the
  "temporarily hide the bitmap pointer" redirection of the write path.
* `bdrv_open` — the prober/opener (lines 39–143), modelled as a decision
  tree over an `Fs` record holding the outcome of each system call the
  opener performs; the `strcpy` into the 1024-byte `filename` field is
  modelled verbatim (no length check, the whole path is stored).
-/

namespace QemuBlock

/-- block.c lines 162–165: `!!(bitmap[bitnum / 8] & (1 << (bitnum % 8)))`. -/
def is_bit_set (bitmap : Nat → Nat) (bitnum : Nat) : Bool :=
  bitmap (bitnum / 8) &&& (1 <<< (bitnum % 8)) != 0

/-- block.c lines 157–160: `bitmap[bitnum / 8] |= (1 << (bitnum % 8))`. -/
def set_bit (bitmap : Nat → Nat) (bitnum : Nat) : Nat → Nat :=
  fun j =>
    if j = bitnum / 8 then bitmap (bitnum / 8) ||| (1 <<< (bitnum % 8))
    else bitmap j

/-- The `for (*num_same = 1; *num_same < nb_sectors; (*num_same)++)` loop of
`is_changed` (block.c lines 183–186), recursing on the remaining iteration
count `nb_sectors - num_same`.  Returns the final value of `*num_same`. -/
def is_changed_loop (bitmap : Nat → Nat) (sector_num : Nat) (changed : Bool) :
    Nat → Nat → Nat
  | num_same, 0 => num_same
  | num_same, rem + 1 =>
    if is_bit_set bitmap (sector_num + num_same) != changed then num_same
    else is_changed_loop bitmap sector_num changed (num_same + 1) rem

/-- block.c lines 171–189.  Returns `(changed, num_same)`: whether the first
sector's bit is set, and the length of the leading run of sectors whose bit
agrees with it (capped at `nb_sectors`).  `!bitmap || nb_sectors == 0` yields
`(0, nb_sectors)`. -/
def is_changed (bitmap : Option (Nat → Nat)) (sector_num : Nat)
    (nb_sectors : Nat) : Bool × Nat :=
  match bitmap with
  | none => (false, nb_sectors)
  | some bm =>
    if nb_sectors = 0 then (false, nb_sectors)
    else
      let changed := is_bit_set bm sector_num
      (changed, is_changed_loop bm sector_num changed 1 (nb_sectors - 1))

theorem is_changed_loop_ge (bm : Nat → Nat) (s : Nat) (c : Bool) (rem : Nat) :
    ∀ num_same, num_same ≤ is_changed_loop bm s c num_same rem := by
  induction rem with
  | zero => intro n; exact Nat.le_refl n
  | succ rem ih =>
    intro n
    simp only [is_changed_loop]
    split
    · exact Nat.le_refl n
    · exact Nat.le_trans (Nat.le_succ n) (ih (n + 1))

/-- The scanner never reports an empty run for a nonempty request.  Stated
before `bdrv_read` because it is what makes the read loop's remaining sector
count strictly decrease, i.e. it justifies the termination of `bdrv_read`. -/
theorem is_changed_snd_pos (bmO : Option (Nat → Nat)) (s nb : Nat)
    (h : nb ≠ 0) : 1 ≤ (is_changed bmO s nb).2 := by
  match bmO with
  | none => exact Nat.pos_of_ne_zero h
  | some bm =>
    simp only [is_changed, h, if_false]
    exact is_changed_loop_ge bm s (is_bit_set bm s) (nb - 1) 1

/-- A byte-addressed file as reached through an open descriptor: current
length and contents. -/
structure File where
  size : Nat
  data : Nat → Nat

/-- POSIX `write` of `len` bytes from `src` at byte offset `off`: the transfer
is complete and extends the file when it goes past the current end. -/
def file_write (f : File) (off : Nat) (src : Nat → Nat) (len : Nat) : File :=
  { size := max f.size (off + len)
    data := fun j => if off ≤ j ∧ j < off + len then src (j - off) else f.data j }

/-- In-memory device state, block.c lines 26–37.  Descriptor fields hold the
file they denote; `none` is the C descriptor value `-1`.  The `filename`
field is handled by the opener model below. -/
structure BlockDriverState where
  fd : Option File
  total_sectors : Nat
  read_only : Bool
  cow_bitmap : Option (Nat → Nat)
  cow_fd : Option File
  cow_sectors_offset : Nat

/-- Overwrite `len` bytes of the caller's buffer starting at `pos` with
`src 0, src 1, ...` — the `memset` / read-into-`buf` steps of `bdrv_read`. -/
def buf_fill (buf : Nat → Nat) (pos len : Nat) (src : Nat → Nat) : Nat → Nat :=
  fun j => if pos ≤ j ∧ j < pos + len then src (j - pos) else buf j

/-- block.c lines 233–264.  The caller's buffer is `buf` together with the
running pointer `pos`.  Returns the final buffer, or `none` for the C return
value `-1` (a short read of the selected descriptor).  A read of `len` bytes
at `offset` is short exactly when `offset + len` exceeds the file size. -/
def bdrv_read (bs : BlockDriverState) (sector_num : Nat) (buf : Nat → Nat)
    (pos : Nat) (nb_sectors : Nat) : Option (Nat → Nat) :=
  if h0 : nb_sectors = 0 then some buf
  else
    let cr := is_changed bs.cow_bitmap sector_num nb_sectors
    let n := cr.2
    let fdoff := if cr.1 then (bs.cow_fd, bs.cow_sectors_offset) else (bs.fd, 0)
    match fdoff.1 with
    | none =>
      bdrv_read bs (sector_num + n) (buf_fill buf pos (n * 512) fun _ => 0)
        (pos + n * 512) (nb_sectors - n)
    | some f =>
      let offset := fdoff.2 + sector_num * 512
      if offset + n * 512 ≤ f.size then
        bdrv_read bs (sector_num + n)
          (buf_fill buf pos (n * 512) fun k => f.data (offset + k))
          (pos + n * 512) (nb_sectors - n)
      else none
termination_by nb_sectors
decreasing_by
  all_goals
    have h1 := is_changed_snd_pos bs.cow_bitmap sector_num nb_sectors h0
    omega

/-- The `for (i = 0; i < nb_sectors; i++) set_bit(bs->cow_bitmap,
sector_num + i)` loop of `bdrv_write` (block.c lines 295–296). -/
def set_bits (bm : Nat → Nat) (sector_num : Nat) : Nat → (Nat → Nat)
  | 0 => bm
  | n + 1 => set_bit (set_bits bm sector_num n) (sector_num + n)

/-- block.c lines 267–299.  Returns the C return code (0 or −1) together with
the state after the call; every failure path returns before touching any
state (the read-only check precedes everything, and `lseek64` on a `-1`
descriptor fails before any byte is written). -/
def bdrv_write (bs : BlockDriverState) (sector_num : Nat) (buf : Nat → Nat)
    (nb_sectors : Nat) : Int × BlockDriverState :=
  if bs.read_only then (-1, bs)
  else
    match bs.cow_bitmap with
    | some bm =>
      match bs.cow_fd with
      | none => (-1, bs)
      | some f =>
        let f2 := file_write f (bs.cow_sectors_offset + sector_num * 512) buf
          (nb_sectors * 512)
        (0, { bs with cow_fd := some f2
                      cow_bitmap := some (set_bits bm sector_num nb_sectors) })
    | none =>
      match bs.fd with
      | none => (-1, bs)
      | some f =>
        (0, { bs with
              fd := some (file_write f (sector_num * 512) buf (nb_sectors * 512)) })

/-- block.c lines 208–227: the commit loop over sector indices.  `bm` is the
local variable `cow_bitmap`; `i` is the current index and `cnt` the number of
remaining iterations (`total_sectors - i`).  On entry to each iteration
`bs.cow_bitmap = some bm`; the single-sector write is performed with the
field nulled out and the field is restored right after, exactly as in the
source (also on the write-failure path). -/
def bdrv_commit_loop (bm : Nat → Nat) : Nat → Nat → BlockDriverState →
    Int × BlockDriverState
  | _, 0, bs => (0, bs)
  | i, cnt + 1, bs =>
    if is_bit_set bm i then
      match bdrv_read bs i (fun _ => 0) 0 1 with
      | none => (-1, bs)
      | some sector =>
        let wr := bdrv_write { bs with cow_bitmap := none } i sector 1
        if wr.1 ≠ 0 then (-1, { wr.2 with cow_bitmap := some bm })
        else bdrv_commit_loop bm (i + 1) cnt { wr.2 with cow_bitmap := some bm }
    else bdrv_commit_loop bm (i + 1) cnt bs

/-- block.c lines 192–230.  A `none` bitmap prints "Already committed" and
returns 0 without touching anything; a read-only device returns −1. -/
def bdrv_commit (bs : BlockDriverState) : Int × BlockDriverState :=
  match bs.cow_bitmap with
  | none => (0, bs)
  | some bm =>
    if bs.read_only then (-1, bs)
    else bdrv_commit_loop bm 0 bs.total_sectors bs

/-! ### The prober/opener, block.c lines 39–143 -/

/-- Modelled from the spec: `COW_MAGIC` is declared in `vl.h`, which is not
part of this repository snapshot; the spec says only that it is a fixed
32-bit signature.  Its concrete value is immaterial to every claim. -/
def COW_MAGIC : Nat := 0x4f4f4f4f

/-- Modelled from the spec: `COW_VERSION` is declared in `vl.h` (missing from
this snapshot); only one version is accepted.  The value is immaterial. -/
def COW_VERSION : Nat := 2

/-- Modelled from the spec: `struct cow_header_v2` is declared in `vl.h`
(missing from this snapshot).  The spec gives its fields: magic, version, a
fixed-size null-terminated `backing_file` path, `mtime` and `size`, the
multi-byte fields stored in network byte order.  The numeric fields below
hold the stored (big-endian-interpreted) values, i.e. the value obtained
after the byte swap `bdrv_open` performs on little-endian hosts
(`bswap64(size)` at line 81, `htonl(cow_header.mtime)` at line 92). -/
structure cow_header_v2 where
  magic : Nat
  version : Nat
  backing_file : List Nat
  mtime : Nat
  size : Nat

/-- Modelled from the spec: `sizeof(struct cow_header_v2)` — a fixed header
size; the exact value is immaterial to every claim. -/
def COW_HEADER_SIZE : Nat := 1048

/-- Capacity of the `char filename[1024]` field (block.c line 36). -/
def FILENAME_SIZE : Nat := 1024

/-- Outcome of every system call `bdrv_open` can perform, fixed up front:
the environment the open runs against. -/
structure Fs where
  open_rw_ok : Bool
  open_ro_ok : Bool
  header : Option cow_header_v2
  backing_mtime : Option Nat
  backing_open_ok : Bool
  mmap_ok : Bool
  raw_size : Nat
  mkstemp_ok : Bool
  anon_mmap_ok : Bool

/-- The fields of the returned handle that the open-time claims are about. -/
structure OpenResult where
  read_only : Bool
  total_sectors : Nat
  has_cow : Bool
  cow_sectors_offset : Nat
  filename : List Nat

/-- block.c lines 39–143, as a decision tree over `Fs`.  Every `goto fail`
is `none`.  The `strcpy(bs->filename, filename)` at line 55 copies the whole
path into the 1024-byte field with no length check, so the model stores the
full path unconditionally — there is no path-length error anywhere.
`(bitmap_size + 511) & ~511` (line 110) is rounding up to a multiple of 512,
written here with division. -/
def bdrv_open (fs : Fs) (filename : List Nat) (snapshot : Bool) :
    Option OpenResult :=
  if fs.open_rw_ok ∨ fs.open_ro_ok then
    let ro := if fs.open_rw_ok then false else if snapshot then false else true
    match fs.header with
    | none => none
    | some h =>
      if h.magic = COW_MAGIC ∧ h.version = COW_VERSION then
        let total := h.size / 512
        let afterBacking : Option Unit :=
          if h.backing_file.headD 0 ≠ 0 then
            match fs.backing_mtime with
            | none => none
            | some mt =>
              if mt ≠ h.mtime then none
              else if fs.backing_open_ok then some () else none
          else some ()
        match afterBacking with
        | none => none
        | some _ =>
          if fs.mmap_ok then
            let bitmap_size := ((total + 7) >>> 3) + COW_HEADER_SIZE
            some { read_only := ro
                   total_sectors := total
                   has_cow := true
                   cow_sectors_offset := ((bitmap_size + 511) / 512) * 512
                   filename := filename }
          else none
      else
        let total := fs.raw_size / 512
        if snapshot then
          if fs.mkstemp_ok then
            if fs.anon_mmap_ok then
              some { read_only := ro
                     total_sectors := total
                     has_cow := true
                     cow_sectors_offset := 0
                     filename := filename }
            else none
          else none
        else
          some { read_only := ro
                 total_sectors := total
                 has_cow := false
                 cow_sectors_offset := 0
                 filename := filename }
  else none

/-! ### Concrete states used by the closed theorems and witnesses -/

/-- Demo bitmap: only bit 0 set (byte 0 holds the value 1). -/
def demoBitmap : Nat → Nat := fun j => if j = 0 then 1 else 0

/-- Demo overlay file: one sector of 0x07 bytes. -/
def demoCowFile : File := { size := 512, data := fun _ => 7 }

/-- Demo backing file: one sector of zero bytes. -/
def demoBackingFile : File := { size := 512, data := fun _ => 0 }

/-- A one-sector device with an overlay whose single sector is dirty. -/
def demoState : BlockDriverState :=
  { fd := some demoBackingFile
    total_sectors := 1
    read_only := false
    cow_bitmap := some demoBitmap
    cow_fd := some demoCowFile
    cow_sectors_offset := 0 }

/-- A read-only device with an overlay. -/
def demoRO : BlockDriverState :=
  { demoState with read_only := true }

/-- A device with no overlay bitmap (plain raw image). -/
def demoNoCow : BlockDriverState :=
  { fd := some demoBackingFile
    total_sectors := 1
    read_only := false
    cow_bitmap := none
    cow_fd := none
    cow_sectors_offset := 0 }

/-- A device with no backing descriptor and no bitmap at all. -/
def noBackingState : BlockDriverState :=
  { fd := none
    total_sectors := 2
    read_only := false
    cow_bitmap := none
    cow_fd := none
    cow_sectors_offset := 0 }

/-- A path of 1024 bytes — one more than fits in `char filename[1024]`
together with the terminating NUL. -/
def longPath : List Nat := List.replicate 1024 97

/-- A header whose magic does not match: a raw image. -/
def rawHeader : cow_header_v2 :=
  { magic := 0, version := 0, backing_file := [], mtime := 0, size := 0 }

/-- An environment in which every call `bdrv_open` makes for a raw image
succeeds. -/
def rawFs : Fs :=
  { open_rw_ok := true
    open_ro_ok := true
    header := some rawHeader
    backing_mtime := none
    backing_open_ok := false
    mmap_ok := false
    raw_size := 5120
    mkstemp_ok := false
    anon_mmap_ok := false }

/-- A COW header naming a backing file, recorded mtime 1000. -/
def staleHeader : cow_header_v2 :=
  { magic := COW_MAGIC
    version := COW_VERSION
    backing_file := [98, 0]
    mtime := 1000
    size := 1024 }

/-- An environment in which the backing file's current mtime (2000) differs
from the 1000 recorded in the header. -/
def staleFs : Fs :=
  { open_rw_ok := true
    open_ro_ok := true
    header := some staleHeader
    backing_mtime := some 2000
    backing_open_ok := true
    mmap_ok := true
    raw_size := 0
    mkstemp_ok := true
    anon_mmap_ok := true }

/-! ### Helper lemmas -/

theorem is_changed_loop_le (bm : Nat → Nat) (s : Nat) (c : Bool) (rem : Nat) :
    ∀ num_same, is_changed_loop bm s c num_same rem ≤ num_same + rem := by
  induction rem with
  | zero => intro n; exact Nat.le_refl n
  | succ rem ih =>
    intro n
    simp only [is_changed_loop]
    split
    · exact Nat.le_add_right n (rem + 1)
    · exact Nat.le_trans (ih (n + 1)) (by omega)

theorem is_changed_loop_uniform (bm : Nat → Nat) (s : Nat) (c : Bool)
    (rem : Nat) :
    ∀ num_same, (∀ k, k < num_same → is_bit_set bm (s + k) = c) →
      ∀ k, k < is_changed_loop bm s c num_same rem → is_bit_set bm (s + k) = c := by
  induction rem with
  | zero =>
    intro n base k hk
    exact base k hk
  | succ rem ih =>
    intro n base k hk
    simp only [is_changed_loop] at hk
    by_cases hflip : (is_bit_set bm (s + n) != c) = true
    · rw [if_pos hflip] at hk
      exact base k hk
    · rw [if_neg hflip] at hk
      have hn : is_bit_set bm (s + n) = c := by
        simpa using hflip
      refine ih (n + 1) ?_ k hk
      intro j hj
      rcases Nat.lt_succ_iff_lt_or_eq.mp hj with hj2 | hj2
      · exact base j hj2
      · rw [hj2]; exact hn

theorem is_changed_loop_flip (bm : Nat → Nat) (s : Nat) (c : Bool)
    (rem : Nat) :
    ∀ num_same, is_changed_loop bm s c num_same rem < num_same + rem →
      is_bit_set bm (s + is_changed_loop bm s c num_same rem) ≠ c := by
  induction rem with
  | zero =>
    intro n h
    exact absurd h (by simp [is_changed_loop])
  | succ rem ih =>
    intro n h
    simp only [is_changed_loop] at h ⊢
    by_cases hflip : (is_bit_set bm (s + n) != c) = true
    · rw [if_pos hflip] at h ⊢
      exact bne_iff_ne.mp hflip
    · rw [if_neg hflip] at h ⊢
      exact ih (n + 1) (by omega)

theorem is_changed_none_eq (s nb : Nat) : is_changed none s nb = (false, nb) :=
  rfl

theorem is_changed_fst (bm : Nat → Nat) (s nb : Nat) (h : nb ≠ 0) :
    (is_changed (some bm) s nb).1 = is_bit_set bm s := by
  simp [is_changed, h]

theorem is_changed_snd_le (bmO : Option (Nat → Nat)) (s nb : Nat) :
    (is_changed bmO s nb).2 ≤ nb := by
  match bmO with
  | none => exact Nat.le_refl nb
  | some bm =>
    by_cases h : nb = 0
    · simp [is_changed, h]
    · simp only [is_changed, h, if_false]
      have := is_changed_loop_le bm s (is_bit_set bm s) (nb - 1) 1
      omega

theorem is_changed_uniform (bm : Nat → Nat) (s nb : Nat) :
    ∀ k, k < (is_changed (some bm) s nb).2 →
      is_bit_set bm (s + k) = (is_changed (some bm) s nb).1 := by
  by_cases h : nb = 0
  · simp [is_changed, h]
  · simp only [is_changed, h, if_false]
    intro k hk
    refine is_changed_loop_uniform bm s (is_bit_set bm s) (nb - 1) 1 ?_ k hk
    intro j hj
    have hj0 : j = 0 := Nat.lt_one_iff.mp hj
    rw [hj0, Nat.add_zero]

theorem is_changed_flip (bm : Nat → Nat) (s nb : Nat)
    (h : (is_changed (some bm) s nb).2 < nb) :
    is_bit_set bm (s + (is_changed (some bm) s nb).2) ≠
      (is_changed (some bm) s nb).1 := by
  by_cases h0 : nb = 0
  · rw [h0] at h; exact absurd h (Nat.not_lt_zero _)
  · simp only [is_changed, h0, if_false] at h ⊢
    exact is_changed_loop_flip bm s (is_bit_set bm s) (nb - 1) 1 (by omega)

theorem bdrv_read_zero (bs : BlockDriverState) (a : Nat) (buf : Nat → Nat)
    (pos : Nat) : bdrv_read bs a buf pos 0 = some buf := by
  rw [bdrv_read]
  simp

theorem is_bit_set_eq_testBit (bm : Nat → Nat) (i : Nat) :
    is_bit_set bm i = (bm (i / 8)).testBit (i % 8) := by
  unfold is_bit_set
  rw [Nat.shiftLeft_eq, Nat.one_mul, Nat.and_two_pow]
  cases h : (bm (i / 8)).testBit (i % 8) <;> simp [h]

theorem set_bit_self (bm : Nat → Nat) (i : Nat) :
    is_bit_set (set_bit bm i) i = true := by
  rw [is_bit_set_eq_testBit]
  unfold set_bit
  rw [if_pos rfl, Nat.shiftLeft_eq, Nat.one_mul, Nat.testBit_or,
    Nat.testBit_two_pow_self]
  simp

theorem set_bit_other (bm : Nat → Nat) (i j : Nat) (hne : j ≠ i) :
    is_bit_set (set_bit bm i) j = is_bit_set bm j := by
  rw [is_bit_set_eq_testBit, is_bit_set_eq_testBit]
  unfold set_bit
  by_cases hdiv : j / 8 = i / 8
  · rw [if_pos hdiv]
    have hmod : i % 8 ≠ j % 8 := by
      intro hmod
      apply hne
      have h1 := Nat.div_add_mod j 8
      have h2 := Nat.div_add_mod i 8
      omega
    rw [Nat.shiftLeft_eq, Nat.one_mul, Nat.testBit_or,
      Nat.testBit_two_pow_of_ne hmod, hdiv]
    simp
  · rw [if_neg hdiv]

theorem set_bits_sets (bm : Nat → Nat) (a : Nat) (nb : Nat) :
    ∀ i, a ≤ i → i < a + nb → is_bit_set (set_bits bm a nb) i = true := by
  induction nb with
  | zero => intro i h1 h2; omega
  | succ n ih =>
    intro i h1 h2
    simp only [set_bits]
    by_cases hi : i = a + n
    · rw [hi]; exact set_bit_self _ _
    · rw [set_bit_other _ _ _ hi]
      exact ih i h1 (by omega)

theorem set_bits_frame (bm : Nat → Nat) (a : Nat) (nb : Nat) :
    ∀ i, i < a ∨ a + nb ≤ i →
      is_bit_set (set_bits bm a nb) i = is_bit_set bm i := by
  induction nb with
  | zero => intro i _; rfl
  | succ n ih =>
    intro i hi
    simp only [set_bits]
    rw [set_bit_other _ _ _ (by omega)]
    exact ih i (by omega)

/-! ### Claim theorems -/

/-- Claim C3: for every handle whose `read_only` flag is set, `bdrv_write`
returns −1 and the whole device state — on-disk data of both descriptors,
the dirty bitmap, and every other field — is unchanged (block.c lines
273–274 return before any side effect). -/
theorem write_read_only_fails_unchanged (bs : BlockDriverState) (a : Nat)
    (buf : Nat → Nat) (nb : Nat) (h : bs.read_only = true) :
    bdrv_write bs a buf nb = (-1, bs) := by
  simp [bdrv_write, h]

theorem write_read_only_fails_unchanged_witness :
    demoRO.read_only = true ∧
      bdrv_write demoRO 0 (fun _ => 255) 1 = (-1, demoRO) :=
  ⟨rfl, write_read_only_fails_unchanged demoRO 0 (fun _ => 255) 1 rfl⟩

/-- Claim C4: with an overlay present (`cow_bitmap` non-null) every written
byte goes to the overlay descriptor at the overlay data offset, and the
backing descriptor — hence the backing file's on-disk bytes — is untouched
on every path of `bdrv_write` (block.c lines 276–282). -/
theorem write_overlay_targets_cow_only (bs : BlockDriverState)
    (bm : Nat → Nat) (a : Nat) (buf : Nat → Nat) (nb : Nat)
    (hbm : bs.cow_bitmap = some bm) :
    (bdrv_write bs a buf nb).2.fd = bs.fd ∧
    (∀ f, bs.cow_fd = some f → bs.read_only = false →
      bdrv_write bs a buf nb = (0, { bs with
        cow_fd := some (file_write f (bs.cow_sectors_offset + a * 512) buf
          (nb * 512))
        cow_bitmap := some (set_bits bm a nb) })) := by
  constructor
  · by_cases hro : bs.read_only
    · simp [bdrv_write, hro]
    · cases hcf : bs.cow_fd <;> simp [bdrv_write, hro, hbm, hcf]
  · intro f hf hro
    simp [bdrv_write, hro, hbm, hf]

theorem write_overlay_targets_cow_only_witness :
    demoState.cow_bitmap = some demoBitmap ∧
    ((bdrv_write demoState 0 (fun _ => 255) 1).2.fd = demoState.fd ∧
    (∀ f, demoState.cow_fd = some f → demoState.read_only = false →
      bdrv_write demoState 0 (fun _ => 255) 1 = (0, { demoState with
        cow_fd := some (file_write f (demoState.cow_sectors_offset + 0 * 512)
          (fun _ => 255) (1 * 512))
        cow_bitmap := some (set_bits demoBitmap 0 1) }))) :=
  ⟨rfl, write_overlay_targets_cow_only demoState demoBitmap 0 (fun _ => 255) 1 rfl⟩

/-- Claim C5: after a successful overlay write of `nb` sectors at `a`, every
bitmap bit in `[a, a+nb)` is set — independent of its prior value — and
every bit outside the range is unchanged (block.c lines 294–297). -/
theorem write_sets_bitmap_range (bs : BlockDriverState) (bm : Nat → Nat)
    (a : Nat) (buf : Nat → Nat) (nb : Nat)
    (hbm : bs.cow_bitmap = some bm)
    (hw : (bdrv_write bs a buf nb).1 = 0) :
    ∃ bm2, (bdrv_write bs a buf nb).2.cow_bitmap = some bm2 ∧
      (∀ i, a ≤ i → i < a + nb → is_bit_set bm2 i = true) ∧
      (∀ i, i < a ∨ a + nb ≤ i → is_bit_set bm2 i = is_bit_set bm i) := by
  by_cases hro : bs.read_only
  · simp [bdrv_write, hro] at hw
  · cases hcf : bs.cow_fd with
    | none => simp [bdrv_write, hro, hbm, hcf] at hw
    | some f =>
      refine ⟨set_bits bm a nb, ?_, set_bits_sets bm a nb,
        set_bits_frame bm a nb⟩
      simp [bdrv_write, hro, hbm, hcf]

theorem write_sets_bitmap_range_witness :
    demoState.cow_bitmap = some demoBitmap ∧
    (bdrv_write demoState 3 (fun _ => 255) 2).1 = 0 ∧
    ∃ bm2, (bdrv_write demoState 3 (fun _ => 255) 2).2.cow_bitmap = some bm2 ∧
      (∀ i, 3 ≤ i → i < 3 + 2 → is_bit_set bm2 i = true) ∧
      (∀ i, i < 3 ∨ 3 + 2 ≤ i → is_bit_set bm2 i = is_bit_set demoBitmap i) :=
  ⟨rfl, rfl, write_sets_bitmap_range demoState demoBitmap 3 (fun _ => 255) 2
    rfl rfl⟩

/-- Claim C6: the run scanner returns the dirty state of the starting sector
together with the count of leading consecutive sectors sharing that state,
scanning bit-by-bit until a state flip or until the requested length is
exhausted; an absent bitmap yields "not dirty" with the full requested
length (block.c lines 171–189). -/
theorem is_changed_spec (bm : Nat → Nat) (a nb : Nat) (h : 1 ≤ nb) :
    (∀ s m, is_changed none s m = (false, m)) ∧
    (is_changed (some bm) a nb).1 = is_bit_set bm a ∧
    1 ≤ (is_changed (some bm) a nb).2 ∧
    (is_changed (some bm) a nb).2 ≤ nb ∧
    (∀ k, k < (is_changed (some bm) a nb).2 →
      is_bit_set bm (a + k) = is_bit_set bm a) ∧
    ((is_changed (some bm) a nb).2 < nb →
      is_bit_set bm (a + (is_changed (some bm) a nb).2) ≠ is_bit_set bm a) := by
  have hne : nb ≠ 0 := by omega
  have hfst := is_changed_fst bm a nb hne
  refine ⟨fun s m => is_changed_none_eq s m, hfst,
    is_changed_snd_pos (some bm) a nb hne, is_changed_snd_le (some bm) a nb,
    ?_, ?_⟩
  · intro k hk
    have hu := is_changed_uniform bm a nb k hk
    rwa [hfst] at hu
  · intro hlt
    have hf := is_changed_flip bm a nb hlt
    rwa [hfst] at hf

theorem is_changed_spec_witness :
    1 ≤ 3 ∧
    ((∀ s m, is_changed none s m = (false, m)) ∧
    (is_changed (some demoBitmap) 0 3).1 = is_bit_set demoBitmap 0 ∧
    1 ≤ (is_changed (some demoBitmap) 0 3).2 ∧
    (is_changed (some demoBitmap) 0 3).2 ≤ 3 ∧
    (∀ k, k < (is_changed (some demoBitmap) 0 3).2 →
      is_bit_set demoBitmap (0 + k) = is_bit_set demoBitmap 0) ∧
    ((is_changed (some demoBitmap) 0 3).2 < 3 →
      is_bit_set demoBitmap (0 + (is_changed (some demoBitmap) 0 3).2) ≠
        is_bit_set demoBitmap 0)) :=
  ⟨by decide, is_changed_spec demoBitmap 0 3 (by decide)⟩

/-- Claim C8: opening a COW container that names a backing file whose
current modification time differs from the mtime stored in the container
header fails: `bdrv_open` returns no handle, whatever the rest of the
environment looks like (block.c lines 92–95). -/
theorem open_stale_mtime_fails (fs : Fs) (filename : List Nat)
    (snapshot : Bool) (h : cow_header_v2) (mt : Nat)
    (hhdr : fs.header = some h)
    (hmagic : h.magic = COW_MAGIC) (hver : h.version = COW_VERSION)
    (hback : h.backing_file.headD 0 ≠ 0)
    (hstat : fs.backing_mtime = some mt)
    (hmt : mt ≠ h.mtime) :
    bdrv_open fs filename snapshot = none := by
  have hback2 : h.backing_file.head?.getD 0 ≠ 0 := by
    rwa [List.headD_eq_head?] at hback
  unfold bdrv_open
  rw [hhdr]
  by_cases hopen : fs.open_rw_ok ∨ fs.open_ro_ok
  · rw [if_pos hopen]
    simp [hmagic, hver, hback2, hstat, hmt]
  · rw [if_neg hopen]

theorem open_stale_mtime_fails_witness :
    staleFs.header = some staleHeader ∧
    staleHeader.magic = COW_MAGIC ∧
    staleHeader.version = COW_VERSION ∧
    staleHeader.backing_file.headD 0 ≠ 0 ∧
    staleFs.backing_mtime = some 2000 ∧
    (2000 : Nat) ≠ staleHeader.mtime ∧
    bdrv_open staleFs [104, 0] false = none :=
  ⟨rfl, rfl, rfl, by decide, rfl, by decide,
    open_stale_mtime_fails staleFs [104, 0] false staleHeader 2000 rfl rfl rfl
      (by decide) rfl (by decide)⟩

/-- Claim C9: with no dirty bitmap, `bdrv_commit` changes nothing and
returns 0 — the "Already committed" notice — which is distinct from the
fatal commit-failure code −1 (block.c lines 197–200). -/
theorem commit_no_bitmap_noop (bs : BlockDriverState)
    (h : bs.cow_bitmap = none) :
    bdrv_commit bs = (0, bs) ∧ (bdrv_commit bs).1 ≠ -1 := by
  have he : bdrv_commit bs = (0, bs) := by
    simp [bdrv_commit, h]
  exact ⟨he, by simp [he]⟩

theorem commit_no_bitmap_noop_witness :
    demoNoCow.cow_bitmap = none ∧
    (bdrv_commit demoNoCow = (0, demoNoCow) ∧
      (bdrv_commit demoNoCow).1 ≠ -1) :=
  ⟨rfl, commit_no_bitmap_noop demoNoCow rfl⟩

/-- Claim C10: for a nonempty request the run scanner reports a run of at
least one and at most `nb_sectors` sectors, so the remaining count
`nb_sectors - num_same` strictly decreases on every iteration of the
`bdrv_read` loop.  This bound is exactly what discharges the termination of
the `bdrv_read` definition above (see its `decreasing_by`); with
`nb_sectors = 0` the loop body is never entered. -/
theorem is_changed_run_bounds (bmO : Option (Nat → Nat)) (a nb : Nat)
    (h : 1 ≤ nb) :
    1 ≤ (is_changed bmO a nb).2 ∧ (is_changed bmO a nb).2 ≤ nb ∧
      nb - (is_changed bmO a nb).2 < nb := by
  have h1 := is_changed_snd_pos bmO a nb (by omega)
  have h2 := is_changed_snd_le bmO a nb
  exact ⟨h1, h2, by omega⟩

theorem is_changed_run_bounds_witness :
    1 ≤ 3 ∧
    (1 ≤ (is_changed (some demoBitmap) 0 3).2 ∧
      (is_changed (some demoBitmap) 0 3).2 ≤ 3 ∧
      3 - (is_changed (some demoBitmap) 0 3).2 < 3) :=
  ⟨by decide, is_changed_run_bounds (some demoBitmap) 0 3 (by decide)⟩

/-- Claim C2, code-bug evidence: `bdrv_open` has no path-length check.  A
1024-byte path — which together with its terminating NUL needs 1025 bytes,
more than the 1024-byte `filename` array holds — is nevertheless accepted:
the open succeeds and the `strcpy` of line 55 stores the whole path (an
out-of-bounds copy in the C code) instead of failing with a path-too-long
error. -/
theorem open_copies_long_path_without_error :
    bdrv_open rawFs longPath false =
      some { read_only := false, total_sectors := 10, has_cow := false,
             cow_sectors_offset := 0, filename := longPath } ∧
    FILENAME_SIZE < longPath.length + 1 := by
  constructor
  · rfl
  · have hlen : longPath.length = 1024 := List.length_replicate 1024 97
    rw [hlen]
    decide

/-- Claim C1, code-bug evidence: `bdrv_commit` never clears the bitmap.  On
a one-sector device with a dirty overlay sector the commit succeeds (returns
0), yet afterwards the handle still carries its bitmap with the bit still
set, so a subsequent read still selects the overlay (`is_changed` still
reports `(true, 1)`): the overlay is not detached and reads do not bypass
it.  This also contradicts the code's own "Already committed" diagnostic,
which equates a committed state with a NULL bitmap (lines 197–199). -/
theorem commit_success_leaves_overlay_attached :
    (bdrv_commit demoState).1 = 0 ∧
    (bdrv_commit demoState).2.cow_bitmap = some demoBitmap ∧
    is_changed (bdrv_commit demoState).2.cow_bitmap 0 1 = (true, 1) := by
  refine ⟨?_, ?_, ?_⟩ <;>
    simp [bdrv_commit, demoState, bdrv_commit_loop, demoBitmap, is_bit_set,
      bdrv_read, is_changed, is_changed_loop, demoCowFile, bdrv_write,
      demoBackingFile, buf_fill, file_write, set_bits, set_bit]

/-- One unfolding of the `bdrv_read` loop in the case the claims C7 is
about: the leading run is clean (`changed = false`) and the backing
descriptor is absent, so the body `memset`s the run and advances. -/
theorem bdrv_read_step_clean_nofd (bs : BlockDriverState) (a : Nat)
    (buf : Nat → Nat) (pos nb : Nat) (h0 : nb ≠ 0)
    (hch : (is_changed bs.cow_bitmap a nb).1 = false) (hfd : bs.fd = none) :
    bdrv_read bs a buf pos nb =
      bdrv_read bs (a + (is_changed bs.cow_bitmap a nb).2)
        (buf_fill buf pos ((is_changed bs.cow_bitmap a nb).2 * 512) fun _ => 0)
        (pos + (is_changed bs.cow_bitmap a nb).2 * 512)
        (nb - (is_changed bs.cow_bitmap a nb).2) := by
  conv_lhs => rw [bdrv_read]
  simp only [dif_neg h0, hch, Bool.false_eq_true, if_false, hfd]

/-- Claim C7: on a handle with no backing descriptor, a read over sectors
whose dirty bit is clear (or whose handle has no bitmap at all) succeeds and
zero-fills the corresponding bytes of the caller's buffer — the
no-backing-store case is defined zero-fill behavior, not an error (block.c
lines 248–250); bytes outside the read range are untouched. -/
theorem read_no_backing_zero_fill (bs : BlockDriverState)
    (hfd : bs.fd = none) :
    ∀ nb a buf pos,
      (∀ i, a ≤ i → i < a + nb →
        ∀ bm, bs.cow_bitmap = some bm → is_bit_set bm i = false) →
      ∃ out, bdrv_read bs a buf pos nb = some out ∧
        (∀ j, pos ≤ j → j < pos + nb * 512 → out j = 0) ∧
        (∀ j, j < pos ∨ pos + nb * 512 ≤ j → out j = buf j) := by
  intro nb
  induction nb using Nat.strong_induction_on with
  | _ nb ih =>
    intro a buf pos hclean
    by_cases h0 : nb = 0
    · subst h0
      exact ⟨buf, bdrv_read_zero bs a buf pos, fun j h1 h2 => by omega,
        fun j hj => rfl⟩
    · have hch : (is_changed bs.cow_bitmap a nb).1 = false := by
        cases hbm : bs.cow_bitmap with
        | none => rfl
        | some bm =>
          rw [is_changed_fst bm a nb h0]
          exact hclean a (Nat.le_refl a) (by omega) bm hbm
      have hpos : 1 ≤ (is_changed bs.cow_bitmap a nb).2 :=
        is_changed_snd_pos bs.cow_bitmap a nb h0
      have hle : (is_changed bs.cow_bitmap a nb).2 ≤ nb :=
        is_changed_snd_le bs.cow_bitmap a nb
      rw [bdrv_read_step_clean_nofd bs a buf pos nb h0 hch hfd]
      set n := (is_changed bs.cow_bitmap a nb).2 with hn
      have hclean2 : ∀ i, a + n ≤ i → i < (a + n) + (nb - n) →
          ∀ bm, bs.cow_bitmap = some bm → is_bit_set bm i = false := by
        intro i hi1 hi2 bm hbm
        exact hclean i (by omega) (by omega) bm hbm
      obtain ⟨out, hout, hzero, hframe⟩ :=
        ih (nb - n) (by omega) (a + n)
          (buf_fill buf pos (n * 512) fun _ => 0) (pos + n * 512) hclean2
      refine ⟨out, hout, ?_, ?_⟩
      · intro j hj1 hj2
        by_cases hj : j < pos + n * 512
        · have hfr : out j = buf_fill buf pos (n * 512) (fun _ => 0) j :=
            hframe j (Or.inl hj)
          rw [hfr]
          simp only [buf_fill]
          rw [if_pos ⟨hj1, hj⟩]
        · exact hzero j (by omega) (by omega)
      · intro j hj
        have hfr : out j = buf_fill buf pos (n * 512) (fun _ => 0) j :=
          hframe j (by omega)
        rw [hfr]
        simp only [buf_fill]
        rw [if_neg (by omega)]

theorem read_no_backing_zero_fill_witness :
    noBackingState.fd = none ∧
    ∃ out, bdrv_read noBackingState 0 (fun _ => 9) 0 2 = some out ∧
      (∀ j, 0 ≤ j → j < 0 + 2 * 512 → out j = 0) ∧
      (∀ j, j < 0 ∨ 0 + 2 * 512 ≤ j → out j = 9) :=
  ⟨rfl, read_no_backing_zero_fill noBackingState rfl 2 0 (fun _ => 9) 0
    (by intro i h1 h2 bm hbm; simp [noBackingState] at hbm)⟩

example : is_changed none 5 7 = (false, 7) := rfl

example :
    is_changed (some fun j => if j = 0 then 3 else 0) 0 5 = (true, 2) := rfl

example :
    is_changed (some fun j => if j = 0 then 4 else 0) 0 5 = (false, 2) := rfl

example : (bdrv_commit demoState).1 = 0 := by
  simp [bdrv_commit, demoState, bdrv_commit_loop, demoBitmap, is_bit_set,
    bdrv_read, is_changed, is_changed_loop, demoCowFile, bdrv_write,
    demoBackingFile, buf_fill, file_write, set_bits, set_bit]

end QemuBlock
